import Mathlib

/-!
Shallow embedding of the core of the `namedtuple-maker` repository
(`namedtuple_maker/namedtuple_maker.py` and
`namedtuple_maker/namedtuple_utils.py`), together with theorems settling
the specification claims about it.

Python strings are modelled as `List Char` (ASCII fragment of the
relevant `str` and `re` operations); Python values that can appear as
keyword arguments or producer return values are modelled by `PyVal`;
fallible operations return `Except PyError`.
-/

namespace NamedtupleMaker

/-! ## Character classes used by the sanitizer regexes -/

/-- The ASCII whitespace characters recognised by Python's `str.strip()`
and by the regex class `\s` (space, tab, newline, carriage return,
vertical tab, form feed). -/
def pyWhitespace (c : Char) : Bool :=
  c == ' ' || c == '\t' || c == '\n' || c == '\r' || c == '\x0b' || c == '\x0c'

/-- ASCII letters, the class `[a-zA-Z]` of `ATTRIBUTE_INPUT_START_CHARACTER`. -/
def isAsciiAlpha (c : Char) : Bool :=
  ('a' ≤ c && c ≤ 'z') || ('A' ≤ c && c ≤ 'Z')

/-- ASCII digits `[0-9]`. -/
def isAsciiDigit (c : Char) : Bool :=
  '0' ≤ c && c ≤ '9'

/-- The regex class `\w` (ASCII fragment): letters, digits, underscore. -/
def isWordChar (c : Char) : Bool :=
  isAsciiAlpha c || isAsciiDigit c || c == '_'

/-! ## Python string helpers -/

/-- `str.lstrip()`: drop leading whitespace. -/
def pyStripLeft (s : List Char) : List Char :=
  s.dropWhile pyWhitespace

/-- `str.strip()`: drop leading and trailing whitespace. -/
def pyStrip (s : List Char) : List Char :=
  (pyStripLeft (pyStripLeft s).reverse).reverse

/-- Decimal digit to its character, as in Python's `str(int)` rendering. -/
def digitToChar (d : Nat) : Char :=
  match d with
  | 0 => '0' | 1 => '1' | 2 => '2' | 3 => '3' | 4 => '4'
  | 5 => '5' | 6 => '6' | 7 => '7' | 8 => '8' | _ => '9'

/-- Fuel-driven accumulator loop producing the decimal digits of `n`
(most significant first) in front of `acc`. -/
def toDecimalAux (fuel : Nat) (n : Nat) (acc : List Char) : List Char :=
  match fuel with
  | 0 => acc
  | fuel + 1 =>
    if n < 10 then digitToChar (n % 10) :: acc
    else toDecimalAux fuel (n / 10) (digitToChar (n % 10) :: acc)

/-- Python's `str(n)` for a non-negative integer `n`: its decimal digits. -/
def natToStr (n : Nat) : List Char :=
  toDecimalAux (n + 1) n []

/-! ## The sanitizer (`validate_attribute_input`) -/

/-- `ATTRIBUTE_INPUT_START_CHARACTER.sub(repl='', ...)`: the pattern
`^[^a-zA-Z]+` removes the leading maximal run of non-letter characters. -/
def startCharacterSub (s : List Char) : List Char :=
  s.dropWhile (fun c => !isAsciiAlpha c)

/-- `ATTRIBUTE_INPUT_INVALID_CHARACTERS.sub(repl='', ...)`: the pattern
`[^\w\s_-]` removes every character that is not a word character,
whitespace, underscore, or hyphen. -/
def invalidCharactersSub (s : List Char) : List Char :=
  s.filter (fun c => isWordChar c || pyWhitespace c || c == '_' || c == '-')

/-- `ATTRIBUTE_INPUT_SPACE_CHARACTERS.sub(repl='_', ...)`: the pattern
`\s` replaces every whitespace character with an underscore. -/
def spaceCharactersSub (s : List Char) : List Char :=
  s.map (fun c => if pyWhitespace c then '_' else c)

/-- The synthesized fallback name `f'index_{index}'`. -/
def indexAttributeName (index : Nat) : List Char :=
  'i' :: 'n' :: 'd' :: 'e' :: 'x' :: '_' :: natToStr index

/-- The body of the `for index, _ in enumerate(attribute_names)` loop of
`validate_attribute_input`, applied to the element at `index`: the three
regex substitution passes (each preceded by `.strip()`), then the
`index_<i>` fallback for a blank result. -/
def sanitizeAttributeName (index : Nat) (name : List Char) : List Char :=
  let step1 := startCharacterSub (pyStrip name)
  let step2 := invalidCharactersSub (pyStrip step1)
  let step3 := spaceCharactersSub (pyStrip step2)
  if step3 = [] then indexAttributeName index else step3

/-- The enumerate loop of `validate_attribute_input` starting at `index`. -/
def validateFrom (index : Nat) : List (List Char) → List (List Char)
  | [] => []
  | name :: rest => sanitizeAttributeName index name :: validateFrom (index + 1) rest

/-- `validate_attribute_input`: sanitize every candidate name in place,
pairing position `i` with loop index `i`. -/
def validate_attribute_input (attribute_names : List (List Char)) : List (List Char) :=
  validateFrom 0 attribute_names

/-! ## Python values, errors and keyword arguments -/

/-- Python values that can appear as a keyword argument of the wrapped
call or as the producer's return value: `None`, booleans, integers,
strings, and lists of strings. -/
inductive PyVal where
  | pyNone
  | pyBool (b : Bool)
  | pyInt (n : Int)
  | pyStr (s : List Char)
  | pyStrList (l : List (List Char))
deriving DecidableEq

/-- Python exceptions raised by the modelled code paths. -/
inductive PyError where
  | typeError (msg : List Char)
  | valueError (msg : List Char)
deriving DecidableEq

/-- The single-quote character, used by Python's `repr` of a string. -/
def squote : Char := Char.ofNat 39

/-- Python's `repr` of a plain string: the text between single quotes. -/
def pyStrRepr (s : List Char) : List Char :=
  squote :: s ++ [squote]

/-- The `type(v).__name__` of a modelled Python value. -/
def pyTypeName : PyVal → List Char
  | .pyNone => ("NoneType").data
  | .pyBool _ => ("bool").data
  | .pyInt _ => ("int").data
  | .pyStr _ => ("str").data
  | .pyStrList _ => ("list").data

/-- The message of the `TypeError` raised by `list(v)` / `tuple(v)` on a
non-iterable value `v`. -/
def notIterableMessage (v : PyVal) : List Char :=
  squote :: pyTypeName v ++ ("' object is not iterable").data

/-- `list(v)` on a modelled value: strings iterate into their characters,
lists copy; `None`, booleans and integers are not iterable. -/
def pyListOfStrings : PyVal → Option (List (List Char))
  | .pyStrList l => some l
  | .pyStr s => some (s.map (fun c => [c]))
  | _ => none

/-- A keyword-argument dictionary, key to value. -/
abbrev Kwargs := List (String × PyVal)

/-- `kwargs.get(key)`: the stored value, or `None` when the key is absent. -/
def kwargsGet (kwargs : Kwargs) (key : String) : PyVal :=
  match List.lookup key kwargs with
  | some v => v
  | none => PyVal.pyNone

/-! ## The producer function and the Python call -/

/-- A caller-supplied producer function, as the wrapping mechanism sees
it: the keyword names its signature can bind (directly or through a
`**kwargs` catch-all), and the value sequence it returns for given
positional and keyword arguments. -/
structure Producer (A V : Type) where
  accepts : String → Bool
  run : List A → Kwargs → List V

/-- `function(*args, **kwargs)`: Python binds every keyword argument
against the function's signature, raising a `TypeError` naming the first
keyword the signature cannot bind; otherwise the body runs. -/
def callProducer (f : Producer A V) (args : List A) (kwargs : Kwargs) :
    Except PyError (List V) :=
  match kwargs.find? (fun kv => !f.accepts kv.1) with
  | some kv =>
      .error (.typeError (("got an unexpected keyword argument ").data
        ++ pyStrRepr kv.1.data))
  | none => .ok (f.run args kwargs)

/-! ## Field-name checks of `collections.namedtuple` (CPython, `rename=False`) -/

/-- ASCII model of `str.isidentifier()`: a letter or underscore followed
by word characters. -/
def isPyIdentifier (s : List Char) : Bool :=
  match s with
  | [] => false
  | c :: rest => (isAsciiAlpha c || c == '_') && rest.all isWordChar

/-- The Python keywords, as tested by `keyword.iskeyword`. -/
def pyKeywords : List (List Char) :=
  [("False").data, ("None").data, ("True").data, ("and").data, ("as").data,
   ("assert").data, ("async").data, ("await").data, ("break").data,
   ("class").data, ("continue").data, ("def").data, ("del").data,
   ("elif").data, ("else").data, ("except").data, ("finally").data,
   ("for").data, ("from").data, ("global").data, ("if").data,
   ("import").data, ("in").data, ("is").data, ("lambda").data,
   ("nonlocal").data, ("not").data, ("or").data, ("pass").data,
   ("raise").data, ("return").data, ("try").data, ("while").data,
   ("with").data, ("yield").data]

/-- First validation loop of `collections.namedtuple`: every name must be
an identifier and must not be a keyword. -/
def checkIdentifiers : List (List Char) → Except PyError Unit
  | [] => .ok ()
  | n :: rest =>
    if !isPyIdentifier n then
      .error (.valueError (("Type names and field names must be valid identifiers: ").data
        ++ pyStrRepr n))
    else if decide (n ∈ pyKeywords) then
      .error (.valueError (("Type names and field names cannot be a keyword: ").data
        ++ pyStrRepr n))
    else checkIdentifiers rest

/-- Second validation loop of `collections.namedtuple` with
`rename=False`: no field name starts with an underscore, and no field
name repeats an earlier one (tracked in `seen`). -/
def checkFieldsSeen (seen : List (List Char)) : List (List Char) → Except PyError Unit
  | [] => .ok ()
  | n :: rest =>
    if n.head? = some '_' then
      .error (.valueError (("Field names cannot start with an underscore: ").data
        ++ pyStrRepr n))
    else if decide (n ∈ seen) then
      .error (.valueError (("Encountered duplicate field name: ").data ++ pyStrRepr n))
    else checkFieldsSeen (n :: seen) rest

/-- `namedtuple(typename='NamedTuple', field_names=...)`: the typename
and the field names pass the identifier/keyword loop, then the field
names pass the underscore/duplicate loop. -/
def namedtupleNew (field_names : List (List Char)) : Except PyError Unit :=
  match checkIdentifiers (("NamedTuple").data :: field_names) with
  | .error e => .error e
  | .ok _ => checkFieldsSeen [] field_names

/-- The constructed named record: ordered field names paired positionally
with the values. -/
structure NamedRecord (V : Type) where
  fields : List (List Char)
  values : List V
deriving DecidableEq

/-! ## The wrapped function `convert_to_namedtuple` -/

/-- The Python count-mismatch `ValueError` message, carrying both
observed lengths in decimal. -/
def countMismatchMessage (inputLen namesLen : Nat) : List Char :=
  ("Length of iterable_input and attribute_names must be equal:\niterable_input length = ").data
    ++ natToStr inputLen
    ++ ("\nattribute_names length = ").data ++ natToStr namesLen

/-- The `for index, value in enumerate(iterable_input)` loop collecting
candidate names when `attribute_names` is absent: per value, the empty
string when `kwargs.get('auto_attribute_names') is True`, else the
response to one interactive `input` prompt (the `userInput` oracle,
indexed by loop position). -/
def collectNames (auto : PyVal) (userInput : Nat → List Char) :
    Nat → List V → List (List Char)
  | _, [] => []
  | index, _ :: rest =>
      (if auto = PyVal.pyBool true then [] else userInput index)
        :: collectNames auto userInput (index + 1) rest

/-- Candidate-name resolution of `convert_to_namedtuple`: when
`kwargs.get('attribute_names')` is not `None` it is converted with
`list(...)` and used verbatim; otherwise the interactive/auto collection
loop runs over the value sequence. -/
def resolveAttributeNames (iterable_input : List V) (kwargs : Kwargs)
    (userInput : Nat → List Char) : Except PyError (List (List Char)) :=
  match kwargsGet kwargs ("attribute_names") with
  | PyVal.pyNone =>
      .ok (collectNames (kwargsGet kwargs ("auto_attribute_names")) userInput 0 iterable_input)
  | v =>
      match pyListOfStrings v with
      | some l => .ok l
      | none => .error (.typeError (notIterableMessage v))

/-- Lines 541-653 of `convert_to_namedtuple`: sanitize the candidate
names, compare lengths, then either build the record through
`collections.namedtuple` or raise the count-mismatch `ValueError`. -/
def buildRecord (iterable_input : List V) (raw_names : List (List Char)) :
    Except PyError (NamedRecord V) :=
  let attribute_names := validate_attribute_input raw_names
  if iterable_input.length = attribute_names.length then
    match namedtupleNew attribute_names with
    | .ok _ => .ok ⟨attribute_names, iterable_input⟩
    | .error e => .error e
  else
    .error (.valueError (countMismatchMessage iterable_input.length attribute_names.length))

/-- Everything `convert_to_namedtuple` does after the producer call:
resolve the candidate names from the call-time keyword arguments, then
sanitize, arity-check and construct. -/
def buildFromIterable (iterable_input : List V) (kwargs : Kwargs)
    (userInput : Nat → List Char) : Except PyError (NamedRecord V) :=
  match resolveAttributeNames iterable_input kwargs userInput with
  | .error e => .error e
  | .ok raw => buildRecord iterable_input raw

/-- The wrapped function produced by the `named_tuple_converter`
decorator: call the producer with the original arguments, then convert
its value sequence into a named record. -/
def convert_to_namedtuple (f : Producer A V) (args : List A) (kwargs : Kwargs)
    (userInput : Nat → List Char) : Except PyError (NamedRecord V) :=
  match callProducer f args kwargs with
  | .error e => .error e
  | .ok iterable_input => buildFromIterable iterable_input kwargs userInput

/-! ## `graceful_exit` and the body of `make_named_tuple` -/

/-- Observable outcome of `graceful_exit` from
`namedtuple_utils.py`: the lines printed to standard output and standard
error, and the process exit status (`sys.exit(1)` or, from an
interactive shell, `os._exit(1)` - the function always terminates the
process with status 1). -/
structure GracefulExit where
  stdoutLines : List (List Char)
  stderrLines : List (List Char)
  exitCode : Nat
deriving DecidableEq

/-- `graceful_exit(error_message=..., error_object=...)`: print the
optional message (after a leading newline), write the optional error's
`repr` (followed by a newline) to standard error, exit with status 1. -/
def graceful_exit (error_message : Option (List Char))
    (error_object : Option (List Char)) : GracefulExit :=
  { stdoutLines := (error_message.map (fun m => '\n' :: m)).toList
  , stderrLines := (error_object.map (fun r => r ++ ['\n'])).toList
  , exitCode := 1 }

/-- Outcome of running the body of a Python function: a returned value, a
propagated exception, or a process exit with its console output. -/
inductive PyOutcome (α : Type) where
  | ok (a : α)
  | raised (e : PyError)
  | exited (g : GracefulExit)
deriving DecidableEq

/-- The `error_message` string built in the `except TypeError` block of
`make_named_tuple`. -/
def tupleErrorMessage : List Char :=
  ("Unable to convert \"iterable_input\" value to a tuple object. See the log file for details.").data

/-- Python's `repr` of the `TypeError` raised by `tuple(v)`. -/
def typeErrorRepr (msg : List Char) : List Char :=
  ("TypeError(").data ++ pyStrRepr msg ++ [')']

/-- The body of the decorated `make_named_tuple` producer:
`tuple(iterable_input)` inside `try/except TypeError`, where the
`except` block calls `graceful_exit` with the error message and the
caught exception. -/
def make_named_tuple_body (iterable_input : PyVal) : PyOutcome (List (List Char)) :=
  match pyListOfStrings iterable_input with
  | some t => .ok t
  | none =>
      .exited (graceful_exit (some tupleErrorMessage)
        (some (typeErrorRepr (notIterableMessage iterable_input))))

/-! ## Concrete producers used in witnesses and counterexamples -/

/-- A producer whose signature binds every keyword (e.g. it declares the
recognized keywords, or a catch-all) and returns a fixed value sequence. -/
def constProducer (values : List PyVal) : Producer PyVal PyVal :=
  { accepts := fun _ => true, run := fun _ _ => values }

/-- A producer that declares no parameters at all, so its signature binds
no keyword. -/
def noKeywordProducer (values : List PyVal) : Producer PyVal PyVal :=
  { accepts := fun _ => false, run := fun _ _ => values }

/-! ## Character-class lemmas -/

theorem ws_not_alpha {c : Char} (h : pyWhitespace c = true) : isAsciiAlpha c = false := by
  simp only [pyWhitespace, Bool.or_eq_true, beq_iff_eq] at h
  rcases h with ((((h | h) | h) | h) | h) | h <;> subst h <;> decide

theorem alpha_not_ws {c : Char} (h : isAsciiAlpha c = true) : pyWhitespace c = false := by
  cases hw : pyWhitespace c with
  | false => rfl
  | true => rw [ws_not_alpha hw] at h; cases h

theorem ws_not_word {c : Char} (h : pyWhitespace c = true) : isWordChar c = false := by
  simp only [pyWhitespace, Bool.or_eq_true, beq_iff_eq] at h
  rcases h with ((((h | h) | h) | h) | h) | h <;> subst h <;> decide

theorem wordlike_not_ws {c : Char} (h : (isWordChar c || c == '-') = true) :
    pyWhitespace c = false := by
  cases hw : pyWhitespace c with
  | false => rfl
  | true =>
    rw [Bool.or_eq_true, beq_iff_eq] at h
    rcases h with h | h
    · rw [ws_not_word hw] at h; cases h
    · subst h; cases hw

theorem alpha_wordlike {c : Char} (h : isAsciiAlpha c = true) :
    (isWordChar c || c == '-') = true := by
  simp [isWordChar, h]

/-! ## `dropWhile`, `filter` and `pyStrip` lemmas -/

theorem dropWhile_head_false {p : Char → Bool} :
    ∀ {l : List Char} {c : Char} {cs : List Char}, l.dropWhile p = c :: cs → p c = false := by
  intro l
  induction l with
  | nil => intro c cs h; cases h
  | cons a t ih =>
    intro c cs h
    rw [List.dropWhile_cons] at h
    by_cases hp : p a = true
    · rw [if_pos hp] at h; exact ih h
    · rw [if_neg hp] at h
      cases h
      exact Bool.eq_false_iff.mpr hp

theorem mem_dropWhile {p : Char → Bool} :
    ∀ {l : List Char} {c}, c ∈ l.dropWhile p → c ∈ l := by
  intro l
  induction l with
  | nil => intro c h; exact h
  | cons a t ih =>
    intro c h
    rw [List.dropWhile_cons] at h
    by_cases hp : p a = true
    · rw [if_pos hp] at h; exact List.mem_cons_of_mem a (ih h)
    · rw [if_neg hp] at h; exact h

theorem dropWhile_eq_self {p : Char → Bool} {l : List Char}
    (h : ∀ c ∈ l, p c = false) : l.dropWhile p = l := by
  cases l with
  | nil => rfl
  | cons a t =>
    rw [List.dropWhile_cons, h a (List.mem_cons_self a t)]
    simp

theorem dropWhile_append_last {p : Char → Bool} {a : Char} (ha : p a = false) :
    ∀ l : List Char, ∃ t, (l ++ [a]).dropWhile p = t ++ [a] := by
  intro l
  induction l with
  | nil =>
    refine ⟨[], ?_⟩
    simp [List.dropWhile_cons, ha]
  | cons b t ih =>
    by_cases hb : p b = true
    · obtain ⟨t', ht'⟩ := ih
      exact ⟨t', by simp [List.dropWhile_cons, hb, ht']⟩
    · exact ⟨b :: t, by simp [List.dropWhile_cons, hb]⟩

theorem mem_pyStrip {s : List Char} {c : Char} (h : c ∈ pyStrip s) : c ∈ s := by
  unfold pyStrip pyStripLeft at h
  rw [List.mem_reverse] at h
  have h1 := mem_dropWhile h
  rw [List.mem_reverse] at h1
  exact mem_dropWhile h1

theorem pyStrip_eq_self {s : List Char} (h : ∀ c ∈ s, pyWhitespace c = false) :
    pyStrip s = s := by
  unfold pyStrip pyStripLeft
  rw [dropWhile_eq_self h]
  rw [dropWhile_eq_self (fun c hc => h c (List.mem_reverse.mp hc))]
  exact List.reverse_reverse s

theorem pyStrip_cons {a : Char} {s : List Char} (ha : pyWhitespace a = false) :
    ∃ t, pyStrip (a :: s) = a :: t := by
  unfold pyStrip pyStripLeft
  rw [List.dropWhile_cons, ha]
  simp only [Bool.false_eq_true, if_false, List.reverse_cons]
  obtain ⟨t, ht⟩ := dropWhile_append_last ha s.reverse
  rw [ht, List.reverse_append]
  exact ⟨t.reverse, rfl⟩

/-! ## Decimal rendering lemmas -/

theorem digitToChar_digit (d : Nat) : isAsciiDigit (digitToChar d) = true := by
  unfold digitToChar
  split <;> decide

theorem digitToChar_injOn :
    ∀ a, a < 10 → ∀ b, b < 10 → digitToChar a = digitToChar b → a = b := by
  decide

theorem toDecimalAux_digits :
    ∀ (fuel n : Nat) (acc : List Char), (∀ c ∈ acc, isAsciiDigit c = true) →
      ∀ c ∈ toDecimalAux fuel n acc, isAsciiDigit c = true := by
  intro fuel
  induction fuel with
  | zero => intro n acc hacc; exact hacc
  | succ fuel ih =>
    intro n acc hacc c hc
    unfold toDecimalAux at hc
    by_cases hn : n < 10
    · rw [if_pos hn] at hc
      rcases List.mem_cons.mp hc with h | h
      · subst h; exact digitToChar_digit _
      · exact hacc c h
    · rw [if_neg hn] at hc
      refine ih (n / 10) _ ?_ c hc
      intro d hd
      rcases List.mem_cons.mp hd with h | h
      · subst h; exact digitToChar_digit _
      · exact hacc d h

theorem natToStr_digits {n : Nat} : ∀ c ∈ natToStr n, isAsciiDigit c = true :=
  toDecimalAux_digits (n + 1) n [] (by intro c hc; cases hc)

theorem toDecimalAux_spec :
    ∀ (fuel n : Nat) (acc : List Char), 0 < n → n < fuel →
      toDecimalAux fuel n acc = ((Nat.digits 10 n).map digitToChar).reverse ++ acc := by
  intro fuel
  induction fuel with
  | zero => intro n acc _ h; exact absurd h (Nat.not_lt_zero n)
  | succ fuel ih =>
    intro n acc hn hfuel
    unfold toDecimalAux
    have hdig : Nat.digits 10 n = n % 10 :: Nat.digits 10 (n / 10) :=
      Nat.digits_def' (by norm_num) hn
    by_cases h10 : n < 10
    · rw [if_pos h10, hdig]
      have : n / 10 = 0 := Nat.div_eq_of_lt h10
      rw [this]
      simp
    · rw [if_neg h10, hdig]
      have hq : 0 < n / 10 := Nat.div_pos (Nat.le_of_not_lt h10) (by norm_num)
      have hqf : n / 10 < fuel := by
        have := Nat.div_lt_self hn (by norm_num : 1 < 10)
        omega
      rw [ih (n / 10) _ hq hqf]
      simp

theorem natToStr_pos {n : Nat} (hn : 0 < n) :
    natToStr n = ((Nat.digits 10 n).map digitToChar).reverse := by
  unfold natToStr
  rw [toDecimalAux_spec (n + 1) n [] hn (Nat.lt_succ_self n)]
  simp

theorem map_digitToChar_inj :
    ∀ (l1 l2 : List Nat), (∀ x ∈ l1, x < 10) → (∀ x ∈ l2, x < 10) →
      l1.map digitToChar = l2.map digitToChar → l1 = l2 := by
  intro l1
  induction l1 with
  | nil =>
    intro l2 _ _ h
    cases l2 with
    | nil => rfl
    | cons b t => cases h
  | cons a t ih =>
    intro l2 h1 h2 h
    cases l2 with
    | nil => cases h
    | cons b t2 =>
      simp only [List.map_cons, List.cons.injEq] at h
      have ha : a < 10 := h1 a (List.mem_cons_self a t)
      have hb : b < 10 := h2 b (List.mem_cons_self b t2)
      have hab : a = b := digitToChar_injOn a ha b hb h.1
      have ht : t = t2 := by
        refine ih t2 (fun x hx => h1 x (List.mem_cons_of_mem a hx))
          (fun x hx => h2 x (List.mem_cons_of_mem b hx)) h.2
      rw [hab, ht]

theorem natToStr_inj : ∀ {a b : Nat}, natToStr a = natToStr b → a = b := by
  intro a b h
  by_cases ha : a = 0
  · by_cases hb : b = 0
    · rw [ha, hb]
    · exfalso
      subst ha
      rw [natToStr_pos (Nat.pos_of_ne_zero hb)] at h
      have h' : ('0' : Char) :: [] = ((Nat.digits 10 b).map digitToChar).reverse := h
      have h2 : (Nat.digits 10 b).map digitToChar = ['0'] := by
        have := congrArg List.reverse h'
        simpa using this.symm
      obtain ⟨d, hd, hdc⟩ : ∃ d, Nat.digits 10 b = [d] ∧ digitToChar d = '0' := by
        cases hdig : Nat.digits 10 b with
        | nil => rw [hdig] at h2; cases h2
        | cons x t =>
          rw [hdig] at h2
          simp only [List.map_cons, List.cons.injEq] at h2
          cases t with
          | nil => exact ⟨x, rfl, h2.1⟩
          | cons y t2 => exact absurd h2.2 (by simp)
      have hdlt : d < 10 :=
        Nat.digits_lt_base (by norm_num) (hd ▸ List.mem_singleton_self d)
      have hd0 : d = 0 := digitToChar_injOn d hdlt 0 (by norm_num) hdc
      have : b = 0 := by
        have := Nat.ofDigits_digits 10 b
        rw [hd, hd0] at this
        simpa [Nat.ofDigits] using this.symm
      exact hb this
  · by_cases hb : b = 0
    · exfalso
      subst hb
      rw [natToStr_pos (Nat.pos_of_ne_zero ha)] at h
      have h' : ((Nat.digits 10 a).map digitToChar).reverse = ('0' : Char) :: [] := h
      have h2 : (Nat.digits 10 a).map digitToChar = ['0'] := by
        have := congrArg List.reverse h'
        simpa using this
      obtain ⟨d, hd, hdc⟩ : ∃ d, Nat.digits 10 a = [d] ∧ digitToChar d = '0' := by
        cases hdig : Nat.digits 10 a with
        | nil => rw [hdig] at h2; cases h2
        | cons x t =>
          rw [hdig] at h2
          simp only [List.map_cons, List.cons.injEq] at h2
          cases t with
          | nil => exact ⟨x, rfl, h2.1⟩
          | cons y t2 => exact absurd h2.2 (by simp)
      have hdlt : d < 10 :=
        Nat.digits_lt_base (by norm_num) (hd ▸ List.mem_singleton_self d)
      have hd0 : d = 0 := digitToChar_injOn d hdlt 0 (by norm_num) hdc
      have : a = 0 := by
        have := Nat.ofDigits_digits 10 a
        rw [hd, hd0] at this
        simpa [Nat.ofDigits] using this.symm
      exact ha this
    · rw [natToStr_pos (Nat.pos_of_ne_zero ha), natToStr_pos (Nat.pos_of_ne_zero hb)] at h
      have hmap := List.reverse_injective h
      have hdig := map_digitToChar_inj _ _
        (fun x hx => Nat.digits_lt_base (by norm_num) hx)
        (fun x hx => Nat.digits_lt_base (by norm_num) hx) hmap
      have := congrArg (Nat.ofDigits 10) hdig
      rwa [Nat.ofDigits_digits, Nat.ofDigits_digits] at this

theorem natToStr_ne_nil {n : Nat} : natToStr n ≠ [] := by
  by_cases hn : n = 0
  · subst hn; intro h; cases h
  · rw [natToStr_pos (Nat.pos_of_ne_zero hn)]
    intro h
    have : Nat.digits 10 n = [] := by
      have := congrArg List.reverse h
      simp only [List.reverse_reverse, List.reverse_nil] at this
      cases hdig : Nat.digits 10 n with
      | nil => rfl
      | cons x t => rw [hdig] at this; cases this
    exact (Nat.digits_ne_nil_iff_ne_zero.mpr hn) this

/-! ## Shape of a sanitized name -/

/-- Short name for the character classes that can appear in a sanitized
name: word characters and the hyphen (which the regex `[^\w\s_-]` keeps). -/
def wordlike (c : Char) : Bool := isWordChar c || c == '-'

theorem indexAttributeName_wordlike (i : Nat) :
    ∀ d ∈ indexAttributeName i, wordlike d = true := by
  intro d hd
  unfold indexAttributeName at hd
  rcases List.mem_cons.mp hd with h | hd; · subst h; decide
  rcases List.mem_cons.mp hd with h | hd; · subst h; decide
  rcases List.mem_cons.mp hd with h | hd; · subst h; decide
  rcases List.mem_cons.mp hd with h | hd; · subst h; decide
  rcases List.mem_cons.mp hd with h | hd; · subst h; decide
  rcases List.mem_cons.mp hd with h | hd; · subst h; decide
  have := natToStr_digits d hd
  simp [wordlike, isWordChar, this]

theorem stepsMember (x : List Char) :
    ∀ d ∈ spaceCharactersSub (pyStrip (invalidCharactersSub x)), wordlike d = true := by
  intro d hd
  unfold spaceCharactersSub at hd
  obtain ⟨e, he, hrepl⟩ := List.mem_map.mp hd
  have he2 : e ∈ invalidCharactersSub x := mem_pyStrip he
  have hkeep := List.of_mem_filter he2
  by_cases hws : pyWhitespace e = true
  · rw [if_pos hws] at hrepl
    subst hrepl; decide
  · rw [if_neg hws] at hrepl
    subst hrepl
    simp only [Bool.or_eq_true, beq_iff_eq] at hkeep
    rcases hkeep with ((hw | hs) | hu) | hh
    · simp [wordlike, hw]
    · exact absurd hs hws
    · subst hu; decide
    · subst hh; decide

theorem stepsHead {a : Char} (t : List Char) (ha : isAsciiAlpha a = true) :
    ∃ t3, spaceCharactersSub (pyStrip (invalidCharactersSub (pyStrip (a :: t)))) = a :: t3 := by
  have haws : pyWhitespace a = false := alpha_not_ws ha
  obtain ⟨t1, ht1⟩ := pyStrip_cons haws (s := t)
  rw [ht1]
  have hkeep : (isWordChar a || pyWhitespace a || a == '_' || a == '-') = true := by
    simp [isWordChar, ha]
  have hfil : invalidCharactersSub (a :: t1) = a :: invalidCharactersSub t1 := by
    unfold invalidCharactersSub
    simp only [List.filter_cons, hkeep]
    rfl
  rw [hfil]
  obtain ⟨t2, ht2⟩ := pyStrip_cons haws (s := invalidCharactersSub t1)
  rw [ht2]
  unfold spaceCharactersSub
  rw [List.map_cons, if_neg (by rw [haws]; intro h; cases h)]
  exact ⟨_, rfl⟩

/-- Unfolded form of the sanitizer's let chain. -/
theorem sanitizeAttributeName_eq (i : Nat) (name : List Char) :
    sanitizeAttributeName i name =
      if spaceCharactersSub (pyStrip (invalidCharactersSub (pyStrip
            (startCharacterSub (pyStrip name))))) = []
      then indexAttributeName i
      else spaceCharactersSub (pyStrip (invalidCharactersSub (pyStrip
            (startCharacterSub (pyStrip name))))) := rfl

/-- Structural description of every sanitizer output: a non-empty string
headed by an ASCII letter whose characters are all word characters or
hyphens. -/
theorem sanitizeShape (i : Nat) (s : List Char) :
    ∃ c cs, sanitizeAttributeName i s = c :: cs ∧ isAsciiAlpha c = true ∧
      ∀ d ∈ c :: cs, wordlike d = true := by
  rw [sanitizeAttributeName_eq]
  cases hs1 : startCharacterSub (pyStrip s) with
  | nil =>
    have hnil : spaceCharactersSub (pyStrip (invalidCharactersSub (pyStrip ([] : List Char)))) = [] := rfl
    rw [hnil, if_pos rfl]
    refine ⟨'i', 'n' :: 'd' :: 'e' :: 'x' :: '_' :: natToStr i, rfl, by decide, ?_⟩
    exact indexAttributeName_wordlike i
  | cons a t =>
    have ha : isAsciiAlpha a = true := by
      have := dropWhile_head_false hs1
      simpa using this
    obtain ⟨t3, ht3⟩ := stepsHead t ha
    rw [ht3, if_neg (by intro h; cases h)]
    refine ⟨a, t3, rfl, ha, ?_⟩
    rw [← ht3]
    exact stepsMember (pyStrip (a :: t))

/-! ## Idempotence of the sanitizer -/

theorem sanitize_fixed {r : List Char} {a : Char} {t : List Char} (i : Nat)
    (hr : r = a :: t) (ha : isAsciiAlpha a = true)
    (hall : ∀ d ∈ r, wordlike d = true) :
    sanitizeAttributeName i r = r := by
  have hnws : ∀ d ∈ r, pyWhitespace d = false := fun d hd => wordlike_not_ws (hall d hd)
  have hstart : startCharacterSub r = r := by
    unfold startCharacterSub
    rw [hr, List.dropWhile_cons]
    simp [ha]
  have hfil : invalidCharactersSub r = r := by
    unfold invalidCharactersSub
    apply List.filter_eq_self.mpr
    intro d hd
    have hw := hall d hd
    unfold wordlike at hw
    rcases Bool.or_eq_true _ _ |>.mp hw with h | h
    · simp [h]
    · simp [h]
  have hmap : spaceCharactersSub r = r := by
    unfold spaceCharactersSub
    have hpt : ∀ d ∈ r, (if pyWhitespace d then '_' else d) = d := by
      intro d hd
      rw [if_neg (by rw [hnws d hd]; intro h; cases h)]
    rw [List.map_congr_left hpt]
    simp
  rw [sanitizeAttributeName_eq, pyStrip_eq_self hnws, hstart, pyStrip_eq_self hnws,
    hfil, pyStrip_eq_self hnws, hmap]
  rw [if_neg (by rw [hr]; intro h; cases h)]

theorem sanitize_idem (i : Nat) (s : List Char) :
    sanitizeAttributeName i (sanitizeAttributeName i s) = sanitizeAttributeName i s := by
  obtain ⟨c, cs, heq, hc, hall⟩ := sanitizeShape i s
  rw [heq]
  exact sanitize_fixed i rfl hc hall

theorem validateFrom_cons (i : Nat) (n : List Char) (rest : List (List Char)) :
    validateFrom i (n :: rest) = sanitizeAttributeName i n :: validateFrom (i + 1) rest := rfl

theorem validateFrom_idem :
    ∀ (L : List (List Char)) (i : Nat), validateFrom i (validateFrom i L) = validateFrom i L := by
  intro L
  induction L with
  | nil => intro i; rfl
  | cons n rest ih =>
    intro i
    rw [validateFrom_cons, validateFrom_cons, sanitize_idem i n, ih (i + 1)]

/-! ## Properties of the synthesized `index_<i>` names -/

theorem indexAttributeName_inj : Function.Injective indexAttributeName := by
  intro a b h
  unfold indexAttributeName at h
  simp only [List.cons.injEq, true_and] at h
  exact natToStr_inj h

theorem indexAttributeName_identifier (i : Nat) :
    isPyIdentifier (indexAttributeName i) = true := by
  unfold indexAttributeName isPyIdentifier
  simp only [Bool.and_eq_true, Bool.or_eq_true]
  constructor
  · left; decide
  · rw [List.all_eq_true]
    intro d hd
    rcases List.mem_cons.mp hd with h | hd; · subst h; decide
    rcases List.mem_cons.mp hd with h | hd; · subst h; decide
    rcases List.mem_cons.mp hd with h | hd; · subst h; decide
    rcases List.mem_cons.mp hd with h | hd; · subst h; decide
    rcases List.mem_cons.mp hd with h | hd; · subst h; decide
    have := natToStr_digits d hd
    simp [isWordChar, this]

theorem indexAttributeName_length (i : Nat) : 7 ≤ (indexAttributeName i).length := by
  unfold indexAttributeName
  simp only [List.length_cons]
  have : 0 < (natToStr i).length := List.length_pos.mpr natToStr_ne_nil
  omega

theorem indexAttributeName_head (i : Nat) : (indexAttributeName i).head? = some 'i' := rfl

theorem keyword_short_or_not_i :
    ∀ k ∈ pyKeywords, k.head? = some 'i' → k.length < 7 := by
  decide

theorem indexAttributeName_not_keyword (i : Nat) :
    indexAttributeName i ∉ pyKeywords := by
  intro hmem
  have hlt := keyword_short_or_not_i _ hmem (indexAttributeName_head i)
  have := indexAttributeName_length i
  omega

/-! ## Success conditions for the `collections.namedtuple` checks -/

theorem checkIdentifiers_ok :
    ∀ names : List (List Char),
      (∀ n ∈ names, isPyIdentifier n = true ∧ n ∉ pyKeywords) →
      checkIdentifiers names = .ok () := by
  intro names
  induction names with
  | nil => intro _; rfl
  | cons n rest ih =>
    intro h
    obtain ⟨hid, hkw⟩ := h n (List.mem_cons_self n rest)
    unfold checkIdentifiers
    rw [hid]
    simp only [Bool.not_true, Bool.false_eq_true, if_false]
    rw [if_neg (by simpa using hkw)]
    exact ih (fun m hm => h m (List.mem_cons_of_mem n hm))

theorem checkFieldsSeen_ok :
    ∀ (names : List (List Char)) (seen : List (List Char)),
      (∀ n ∈ names, n.head? ≠ some '_') → names.Nodup →
      (∀ n ∈ names, n ∉ seen) →
      checkFieldsSeen seen names = .ok () := by
  intro names
  induction names with
  | nil => intro seen _ _ _; rfl
  | cons n rest ih =>
    intro seen hhd hnd hseen
    unfold checkFieldsSeen
    rw [if_neg (hhd n (List.mem_cons_self n rest))]
    rw [if_neg (by simpa using hseen n (List.mem_cons_self n rest))]
    refine ih (n :: seen) (fun m hm => hhd m (List.mem_cons_of_mem n hm))
      (List.Nodup.of_cons hnd) ?_
    intro m hm
    rw [List.mem_cons]
    push_neg
    constructor
    · intro hmn
      subst hmn
      exact (List.nodup_cons.mp hnd).1 hm
    · exact hseen m (List.mem_cons_of_mem n hm)

theorem namedtupleNew_ok {names : List (List Char)}
    (hid : ∀ n ∈ names, isPyIdentifier n = true ∧ n ∉ pyKeywords)
    (hhd : ∀ n ∈ names, n.head? ≠ some '_') (hnd : names.Nodup) :
    namedtupleNew names = .ok () := by
  unfold namedtupleNew
  have hall : checkIdentifiers (("NamedTuple").data :: names) = .ok () := by
    apply checkIdentifiers_ok
    intro n hn
    rcases List.mem_cons.mp hn with h | hn
    · subst h; exact ⟨by decide, by decide⟩
    · exact hid n hn
  rw [hall]
  exact checkFieldsSeen_ok names [] hhd hnd (fun n _ => List.not_mem_nil n)

/-! ## Shape facts about `validate_attribute_input` output -/

theorem validateFrom_mem_shape :
    ∀ (L : List (List Char)) (i : Nat) (n : List Char), n ∈ validateFrom i L →
      ∃ c cs, n = c :: cs ∧ isAsciiAlpha c = true ∧ ∀ d ∈ n, wordlike d = true := by
  intro L
  induction L with
  | nil => intro i n h; cases h
  | cons m rest ih =>
    intro i n h
    rw [validateFrom_cons] at h
    rcases List.mem_cons.mp h with h | h
    · obtain ⟨c, cs, heq, hc, hall⟩ := sanitizeShape i m
      subst h
      exact ⟨c, cs, heq, hc, heq ▸ hall⟩
    · exact ih (i + 1) n h

theorem sanitized_head_not_underscore {L : List (List Char)} {n : List Char}
    (h : n ∈ validate_attribute_input L) : n.head? ≠ some '_' := by
  obtain ⟨c, cs, heq, hc, _⟩ := validateFrom_mem_shape L 0 n h
  rw [heq]
  intro hcontra
  simp only [List.head?_cons, Option.some.injEq] at hcontra
  subst hcontra
  cases hc

theorem sanitized_identifier {L : List (List Char)} {n : List Char}
    (h : n ∈ validate_attribute_input L) (hdash : ('-') ∉ n) :
    isPyIdentifier n = true := by
  obtain ⟨c, cs, heq, hc, hall⟩ := validateFrom_mem_shape L 0 n h
  subst heq
  unfold isPyIdentifier
  simp only [Bool.and_eq_true, Bool.or_eq_true]
  constructor
  · left; exact hc
  · rw [List.all_eq_true]
    intro d hd
    have hw := hall d (List.mem_cons_of_mem c hd)
    unfold wordlike at hw
    rcases Bool.or_eq_true _ _ |>.mp hw with hh | hh
    · exact hh
    · rw [beq_iff_eq] at hh
      subst hh
      exact absurd (List.mem_cons_of_mem c hd) hdash

/-! ## Pipeline unfolding lemmas -/

theorem callProducer_ok {f : Producer A V} {args : List A} {kwargs : Kwargs}
    (hacc : ∀ kv ∈ kwargs, f.accepts kv.1 = true) :
    callProducer f args kwargs = .ok (f.run args kwargs) := by
  unfold callProducer
  have hfind : kwargs.find? (fun kv => !f.accepts kv.1) = none := by
    rw [List.find?_eq_none]
    intro kv hkv
    rw [hacc kv hkv]
    simp
  rw [hfind]

theorem convert_eq_build {f : Producer A V} {args : List A} {kwargs : Kwargs}
    {userInput : Nat → List Char}
    (hacc : ∀ kv ∈ kwargs, f.accepts kv.1 = true) :
    convert_to_namedtuple f args kwargs userInput
      = buildFromIterable (f.run args kwargs) kwargs userInput := by
  unfold convert_to_namedtuple
  rw [callProducer_ok hacc]

theorem resolve_provided {it : List V} {kwargs : Kwargs} {userInput : Nat → List Char}
    {l : List (List Char)}
    (h : kwargsGet kwargs ("attribute_names") = PyVal.pyStrList l) :
    resolveAttributeNames it kwargs userInput = .ok l := by
  unfold resolveAttributeNames
  rw [h]
  rfl

theorem resolve_absent {it : List V} {kwargs : Kwargs} {userInput : Nat → List Char}
    (h : kwargsGet kwargs ("attribute_names") = PyVal.pyNone) :
    resolveAttributeNames it kwargs userInput
      = .ok (collectNames (kwargsGet kwargs ("auto_attribute_names")) userInput 0 it) := by
  unfold resolveAttributeNames
  rw [h]

theorem collectNames_auto {userInput : Nat → List Char} :
    ∀ (values : List V) (i : Nat),
      collectNames (PyVal.pyBool true) userInput i values
        = List.replicate values.length [] := by
  intro values
  induction values with
  | nil => intro i; rfl
  | cons v rest ih =>
    intro i
    unfold collectNames
    rw [if_pos rfl, ih (i + 1)]
    rfl

theorem collectNames_prompt {auto : PyVal} {userInput : Nat → List Char}
    (hauto : auto ≠ PyVal.pyBool true) :
    ∀ (values : List V) (i : Nat),
      collectNames auto userInput i values
        = (List.range' i values.length).map userInput := by
  intro values
  induction values with
  | nil => intro i; rfl
  | cons v rest ih =>
    intro i
    unfold collectNames
    rw [if_neg hauto, ih (i + 1)]
    simp only [List.length_cons, List.range'_succ, List.map_cons]

theorem build_provided {it : List V} {kwargs : Kwargs} {userInput : Nat → List Char}
    {l : List (List Char)}
    (h : kwargsGet kwargs ("attribute_names") = PyVal.pyStrList l) :
    buildFromIterable it kwargs userInput = buildRecord it l := by
  unfold buildFromIterable
  rw [resolve_provided h]

theorem build_auto {it : List V} {kwargs : Kwargs} {userInput : Nat → List Char}
    (h : kwargsGet kwargs ("attribute_names") = PyVal.pyNone)
    (hauto : kwargsGet kwargs ("auto_attribute_names") = PyVal.pyBool true) :
    buildFromIterable it kwargs userInput
      = buildRecord it (List.replicate it.length []) := by
  unfold buildFromIterable
  rw [resolve_absent h, hauto, collectNames_auto it 0]

theorem build_prompts {it : List V} {kwargs : Kwargs} {userInput : Nat → List Char}
    (h : kwargsGet kwargs ("attribute_names") = PyVal.pyNone)
    (hauto : kwargsGet kwargs ("auto_attribute_names") ≠ PyVal.pyBool true) :
    buildFromIterable it kwargs userInput
      = buildRecord it ((List.range it.length).map userInput) := by
  unfold buildFromIterable
  rw [resolve_absent h, collectNames_prompt hauto it 0, List.range_eq_range']

/-! ## Auto-generated names through the sanitizer -/

theorem validateFrom_replicate :
    ∀ (n i : Nat), validateFrom i (List.replicate n [])
      = (List.range' i n).map indexAttributeName := by
  intro n
  induction n with
  | zero => intro i; rfl
  | succ n ih =>
    intro i
    rw [List.replicate_succ, validateFrom_cons, ih (i + 1), List.range'_succ]
    have : sanitizeAttributeName i [] = indexAttributeName i := rfl
    rw [this]
    rfl

theorem validate_replicate (n : Nat) :
    validate_attribute_input (List.replicate n [])
      = (List.range n).map indexAttributeName := by
  unfold validate_attribute_input
  rw [validateFrom_replicate n 0, List.range_eq_range']

/-! ## Injectivity of the count-mismatch message -/

theorem append_digits_inj :
    ∀ (xs : List Char), ∀ {ys u v : List Char},
      (∀ c ∈ xs, isAsciiDigit c = true) → (∀ c ∈ ys, isAsciiDigit c = true) →
      (∀ c, u.head? = some c → isAsciiDigit c = false) →
      (∀ c, v.head? = some c → isAsciiDigit c = false) →
      xs ++ u = ys ++ v → xs = ys ∧ u = v := by
  intro xs
  induction xs with
  | nil =>
    intro ys u v _ hys hu _ h
    cases ys with
    | nil => exact ⟨rfl, h⟩
    | cons b t =>
      exfalso
      simp only [List.nil_append, List.cons_append] at h
      have hb : isAsciiDigit b = false := hu b (by rw [h]; rfl)
      rw [hys b (List.mem_cons_self b t)] at hb
      cases hb
  | cons a t ih =>
    intro ys u v hxs hys hu hv h
    cases ys with
    | nil =>
      exfalso
      simp only [List.cons_append, List.nil_append] at h
      have ha : isAsciiDigit a = false := hv a (by rw [← h]; rfl)
      rw [hxs a (List.mem_cons_self a t)] at ha
      cases ha
    | cons b t2 =>
      simp only [List.cons_append, List.cons.injEq] at h
      obtain ⟨hab, ht⟩ := h
      subst hab
      obtain ⟨h1, h2⟩ := ih (fun c hc => hxs c (List.mem_cons_of_mem a hc))
        (fun c hc => hys c (List.mem_cons_of_mem a hc)) hu hv ht
      exact ⟨by rw [h1], h2⟩

theorem countMismatchMessage_inj :
    ∀ a b c d : Nat, countMismatchMessage a b = countMismatchMessage c d →
      a = c ∧ b = d := by
  intro a b c d h
  unfold countMismatchMessage at h
  rw [List.append_assoc, List.append_assoc, List.append_assoc, List.append_assoc] at h
  have h1 := List.append_cancel_left h
  have hsep : ∀ (x : List Char) (e : Char),
      ((("\nattribute_names length = ").data ++ x).head? = some e) →
        isAsciiDigit e = false := by
    intro x e he
    have : some '\n' = some e := he
    cases this
    decide
  obtain ⟨hac, hrest⟩ := append_digits_inj (natToStr a)
    (fun e he => natToStr_digits e he) (fun e he => natToStr_digits e he)
    (hsep (natToStr b)) (hsep (natToStr d)) h1
  have hbd := List.append_cancel_left hrest
  exact ⟨natToStr_inj hac, natToStr_inj hbd⟩

/-! ## `buildRecord` case lemmas -/

theorem buildRecord_eq (it : List V) (raw : List (List Char)) :
    buildRecord it raw =
      if it.length = (validate_attribute_input raw).length then
        match namedtupleNew (validate_attribute_input raw) with
        | .ok _ => .ok ⟨validate_attribute_input raw, it⟩
        | .error e => .error e
      else
        .error (.valueError
          (countMismatchMessage it.length (validate_attribute_input raw).length)) := rfl

theorem buildRecord_mismatch {it : List V} {raw : List (List Char)}
    (h : it.length ≠ (validate_attribute_input raw).length) :
    buildRecord it raw = .error (.valueError
      (countMismatchMessage it.length (validate_attribute_input raw).length)) := by
  rw [buildRecord_eq, if_neg h]

theorem buildRecord_ok {it : List V} {raw : List (List Char)}
    (hlen : it.length = (validate_attribute_input raw).length)
    (hok : namedtupleNew (validate_attribute_input raw) = .ok ()) :
    buildRecord it raw = .ok ⟨validate_attribute_input raw, it⟩ := by
  rw [buildRecord_eq, if_pos hlen, hok]

/-! ## Claim theorems -/

/-- Claim C1 (amended): when the value sequence and the sanitized name
list differ in length, the wrapped call fails with the count-mismatch
`ValueError` carrying both observed lengths (recoverable from the
message, which is injective in the pair of lengths); when the lengths
are equal and the sanitized names additionally pass the record type's
field-name checks (pairwise distinct, hyphen-free, not Python keywords),
construction succeeds and returns the named record. The mismatch error
is surfaced to the caller, never recovered. -/
theorem arity_invariant {A V : Type} (f : Producer A V) (args : List A)
    (kwargs : Kwargs) (userInput : Nat → List Char) (raw : List (List Char))
    (hacc : ∀ kv ∈ kwargs, f.accepts kv.1 = true)
    (hnames : kwargsGet kwargs ("attribute_names") = PyVal.pyStrList raw) :
    ((f.run args kwargs).length ≠ (validate_attribute_input raw).length →
      convert_to_namedtuple f args kwargs userInput
        = .error (.valueError (countMismatchMessage (f.run args kwargs).length
            (validate_attribute_input raw).length)))
    ∧ ((f.run args kwargs).length = (validate_attribute_input raw).length →
       (validate_attribute_input raw).Nodup →
       (∀ n ∈ validate_attribute_input raw, ('-') ∉ n ∧ n ∉ pyKeywords) →
      convert_to_namedtuple f args kwargs userInput
        = .ok ⟨validate_attribute_input raw, f.run args kwargs⟩)
    ∧ (∀ a b c d : Nat, countMismatchMessage a b = countMismatchMessage c d →
        a = c ∧ b = d) := by
  refine ⟨?_, ?_, countMismatchMessage_inj⟩
  · intro hne
    rw [convert_eq_build hacc, build_provided hnames, buildRecord_mismatch hne]
  · intro hlen hnd hgood
    rw [convert_eq_build hacc, build_provided hnames]
    refine buildRecord_ok hlen (namedtupleNew_ok ?_ ?_ hnd)
    · intro n hn
      exact ⟨sanitized_identifier hn (hgood n hn).1, (hgood n hn).2⟩
    · intro n hn
      exact sanitized_head_not_underscore hn

/-- Witness for C1: a one-value call with two names raises the mismatch
error carrying lengths 1 and 2; a two-value call with the two sanitized
names `first_name`, `last_name` succeeds. -/
theorem arity_invariant_witness :
    (convert_to_namedtuple (constProducer [PyVal.pyInt 1]) []
        [(("attribute_names"), PyVal.pyStrList [("first name").data, ("$1_las*t_nam)(e").data])]
        (fun _ => [])
      = .error (.valueError (countMismatchMessage 1 2)))
    ∧ (convert_to_namedtuple (constProducer [PyVal.pyInt 1, PyVal.pyInt 2]) []
        [(("attribute_names"), PyVal.pyStrList [("first name").data, ("$1_las*t_nam)(e").data])]
        (fun _ => [])
      = .ok ⟨[("first_name").data, ("last_name").data], [PyVal.pyInt 1, PyVal.pyInt 2]⟩) :=
  ⟨(arity_invariant (constProducer [PyVal.pyInt 1]) []
      [(("attribute_names"), PyVal.pyStrList [("first name").data, ("$1_las*t_nam)(e").data])]
      (fun _ => []) [("first name").data, ("$1_las*t_nam)(e").data]
      (fun kv _ => rfl) rfl).1 (by decide),
   (arity_invariant (constProducer [PyVal.pyInt 1, PyVal.pyInt 2]) []
      [(("attribute_names"), PyVal.pyStrList [("first name").data, ("$1_las*t_nam)(e").data])]
      (fun _ => []) [("first name").data, ("$1_las*t_nam)(e").data]
      (fun kv _ => rfl) rfl).2.1 rfl (by decide) (by decide)⟩

/-- Counterexample for C1 as stated: two values with the two sanitized
names `a`, `a` have equal value and name counts, yet construction does
not succeed - the duplicate field name makes the record type raise a
`ValueError`. -/
theorem arity_invariant_counterexample :
    (validate_attribute_input [['a'], ['a']]).length = 2
    ∧ convert_to_namedtuple (constProducer [PyVal.pyInt 1, PyVal.pyInt 2]) []
        [(("attribute_names"), PyVal.pyStrList [['a'], ['a']])] (fun _ => [])
      = .error (.valueError (("Encountered duplicate field name: ").data ++ pyStrRepr ['a'])) :=
  ⟨rfl, rfl⟩

/-- Claim C2 (amended): for every input string and position, the
sanitizer's output is non-empty, starts with an ASCII letter (in
particular, the `index_<i>` fallback starts with the letter `i`),
contains no whitespace, and contains only letters, digits, underscores,
and hyphens. -/
theorem sanitizer_output_validity (i : Nat) (s : List Char) :
    ∃ c cs, sanitizeAttributeName i s = c :: cs ∧ isAsciiAlpha c = true ∧
      (∀ d ∈ c :: cs, pyWhitespace d = false) ∧
      (∀ d ∈ c :: cs, isAsciiAlpha d = true ∨ isAsciiDigit d = true ∨ d = '_' ∨ d = '-') := by
  obtain ⟨c, cs, heq, hc, hall⟩ := sanitizeShape i s
  refine ⟨c, cs, heq, hc, fun d hd => wordlike_not_ws (hall d hd), ?_⟩
  intro d hd
  have hw := hall d hd
  unfold wordlike isWordChar at hw
  simp only [Bool.or_eq_true, beq_iff_eq] at hw
  rcases hw with ((h | h) | h) | h
  · exact Or.inl h
  · exact Or.inr (Or.inl h)
  · exact Or.inr (Or.inr (Or.inl h))
  · exact Or.inr (Or.inr (Or.inr h))

/-- Counterexample for C2 as stated: sanitizing `a-b` keeps the hyphen,
which is neither a letter, a digit, nor an underscore. -/
theorem sanitizer_output_validity_counterexample :
    sanitizeAttributeName 0 (("a-b").data) = ("a-b").data
    ∧ '-' ∈ sanitizeAttributeName 0 (("a-b").data)
    ∧ isAsciiAlpha '-' = false ∧ isAsciiDigit '-' = false ∧ ('-') ≠ '_' := by
  decide

/-- Claim C3 (amended): the wrapped call forwards all positional and
keyword arguments to the producer unchanged, and the wrapper itself
inspects only the call-time keyword arguments; but the invocation of the
producer succeeds only when the producer's signature can bind every
forwarded keyword - when some keyword is not accepted, the call fails
with a `TypeError` instead of invoking the producer. -/
theorem argument_forwarding {A V : Type} (f : Producer A V) (args : List A)
    (kwargs : Kwargs) (userInput : Nat → List Char) :
    ((∀ kv ∈ kwargs, f.accepts kv.1 = true) →
      convert_to_namedtuple f args kwargs userInput
        = buildFromIterable (f.run args kwargs) kwargs userInput)
    ∧ ((∃ kv ∈ kwargs, f.accepts kv.1 = false) →
      ∃ msg, convert_to_namedtuple f args kwargs userInput
        = .error (.typeError msg)) := by
  constructor
  · exact fun hacc => convert_eq_build hacc
  · rintro ⟨kv0, hkv0, hrej⟩
    unfold convert_to_namedtuple callProducer
    cases hfind : kwargs.find? (fun kv => !f.accepts kv.1) with
    | some _kv => exact ⟨_, rfl⟩
    | none =>
      exfalso
      rw [List.find?_eq_none] at hfind
      have := hfind kv0 hkv0
      rw [hrej] at this
      simp at this

/-- Witness for C3: a producer accepting every keyword is invoked with
the original arguments; a producer declaring no parameters fails with a
`TypeError` when the recognized keyword is forwarded. -/
theorem argument_forwarding_witness :
    (convert_to_namedtuple (constProducer [PyVal.pyInt 5]) []
        [(("auto_attribute_names"), PyVal.pyBool true)] (fun _ => [])
      = buildFromIterable [PyVal.pyInt 5]
          [(("auto_attribute_names"), PyVal.pyBool true)] (fun _ => []))
    ∧ (∃ msg, convert_to_namedtuple (noKeywordProducer [PyVal.pyInt 5]) []
        [(("auto_attribute_names"), PyVal.pyBool true)] (fun _ => [])
      = .error (.typeError msg)) :=
  ⟨(argument_forwarding (constProducer [PyVal.pyInt 5]) []
      [(("auto_attribute_names"), PyVal.pyBool true)] (fun _ => [])).1
      (fun kv _ => rfl),
   (argument_forwarding (noKeywordProducer [PyVal.pyInt 5]) []
      [(("auto_attribute_names"), PyVal.pyBool true)] (fun _ => [])).2
      ⟨(("auto_attribute_names"), PyVal.pyBool true), List.mem_singleton.mpr rfl, rfl⟩⟩

/-- Counterexample for C3 as stated: wrapping a producer that declares
no parameters and calling it with `attribute_names` does not succeed in
invoking the producer - the forwarded keyword cannot be bound and the
call raises a `TypeError`. -/
theorem argument_forwarding_counterexample :
    convert_to_namedtuple (noKeywordProducer [PyVal.pyInt 1]) []
        [(("attribute_names"), PyVal.pyStrList [['a']])] (fun _ => [])
      = .error (.typeError (("got an unexpected keyword argument ").data
          ++ pyStrRepr (("attribute_names").data))) := rfl

/-- Claim C4 (amended): the `attribute_names` keyword is used verbatim
as the candidate name list exactly when it is present (not `None`) -
including when it is empty; only when it is absent (or `None`) does the
builder fall back to auto-generation (when `auto_attribute_names` is the
boolean `True`) or to one interactive prompt per value. -/
theorem attribute_names_resolution {A V : Type} (f : Producer A V) (args : List A)
    (kwargs : Kwargs) (userInput : Nat → List Char)
    (hacc : ∀ kv ∈ kwargs, f.accepts kv.1 = true) :
    (∀ l, kwargsGet kwargs ("attribute_names") = PyVal.pyStrList l →
      convert_to_namedtuple f args kwargs userInput = buildRecord (f.run args kwargs) l)
    ∧ (kwargsGet kwargs ("attribute_names") = PyVal.pyNone →
       kwargsGet kwargs ("auto_attribute_names") = PyVal.pyBool true →
      convert_to_namedtuple f args kwargs userInput
        = buildRecord (f.run args kwargs) (List.replicate (f.run args kwargs).length []))
    ∧ (kwargsGet kwargs ("attribute_names") = PyVal.pyNone →
       kwargsGet kwargs ("auto_attribute_names") ≠ PyVal.pyBool true →
      convert_to_namedtuple f args kwargs userInput
        = buildRecord (f.run args kwargs)
            ((List.range (f.run args kwargs).length).map userInput)) := by
  refine ⟨?_, ?_, ?_⟩
  · intro l h
    rw [convert_eq_build hacc, build_provided h]
  · intro h hauto
    rw [convert_eq_build hacc, build_auto h hauto]
  · intro h hauto
    rw [convert_eq_build hacc, build_prompts h hauto]

/-- Witness for C4: one call per name source - provided list (used
verbatim), auto-generation, and interactive prompting. -/
theorem attribute_names_resolution_witness :
    (convert_to_namedtuple (constProducer [PyVal.pyInt 2]) []
        [(("attribute_names"), PyVal.pyStrList [['a']])] (fun _ => [])
      = buildRecord [PyVal.pyInt 2] [['a']])
    ∧ (convert_to_namedtuple (constProducer [PyVal.pyInt 2]) []
        [(("auto_attribute_names"), PyVal.pyBool true)] (fun _ => [])
      = buildRecord [PyVal.pyInt 2] (List.replicate 1 []))
    ∧ (convert_to_namedtuple (constProducer [PyVal.pyInt 2]) []
        [(("auto_attribute_names"), PyVal.pyInt 1)] (fun _ => ("age").data)
      = buildRecord [PyVal.pyInt 2] ((List.range 1).map (fun _ => ("age").data))) :=
  ⟨(attribute_names_resolution (constProducer [PyVal.pyInt 2]) []
      [(("attribute_names"), PyVal.pyStrList [['a']])] (fun _ => [])
      (fun kv _ => rfl)).1 [['a']] rfl,
   (attribute_names_resolution (constProducer [PyVal.pyInt 2]) []
      [(("auto_attribute_names"), PyVal.pyBool true)] (fun _ => [])
      (fun kv _ => rfl)).2.1 rfl rfl,
   (attribute_names_resolution (constProducer [PyVal.pyInt 2]) []
      [(("auto_attribute_names"), PyVal.pyInt 1)] (fun _ => ("age").data)
      (fun kv _ => rfl)).2.2 rfl (by decide)⟩

/-- Counterexample for C4 as stated: an empty `attribute_names` list is
present but empty, yet it is used verbatim rather than falling back -
with one value and auto-naming requested, the call raises the
count-mismatch error, while the same call without `attribute_names`
succeeds through the auto-naming fallback. -/
theorem attribute_names_resolution_counterexample :
    (convert_to_namedtuple (constProducer [PyVal.pyInt 1]) []
        [(("attribute_names"), PyVal.pyStrList []),
         (("auto_attribute_names"), PyVal.pyBool true)] (fun _ => [])
      = .error (.valueError (countMismatchMessage 1 0)))
    ∧ (convert_to_namedtuple (constProducer [PyVal.pyInt 1]) []
        [(("auto_attribute_names"), PyVal.pyBool true)] (fun _ => [])
      = .ok ⟨[("index_0").data], [PyVal.pyInt 1]⟩) :=
  ⟨rfl, rfl⟩

/-- Claim C5: the sanitizer is idempotent - sanitizing an
already-sanitized name list returns it unchanged, at every position. -/
theorem sanitizer_idempotent (L : List (List Char)) :
    validate_attribute_input (validate_attribute_input L) = validate_attribute_input L :=
  validateFrom_idem L 0

/-- Claim C6: with `auto_attribute_names` equal to the boolean `True` and
`attribute_names` absent, the wrapped call returns a record whose field
names are exactly `index_0, ..., index_(N-1)`, in order, for a value
sequence of any length `N`. -/
theorem auto_naming_determinism {A V : Type} (f : Producer A V) (args : List A)
    (kwargs : Kwargs) (userInput : Nat → List Char)
    (hacc : ∀ kv ∈ kwargs, f.accepts kv.1 = true)
    (hattr : kwargsGet kwargs ("attribute_names") = PyVal.pyNone)
    (hauto : kwargsGet kwargs ("auto_attribute_names") = PyVal.pyBool true) :
    convert_to_namedtuple f args kwargs userInput
      = .ok ⟨(List.range (f.run args kwargs).length).map indexAttributeName,
             f.run args kwargs⟩ := by
  rw [convert_eq_build hacc, build_auto hattr hauto]
  have hval := validate_replicate (f.run args kwargs).length
  have hlen : (f.run args kwargs).length
      = (validate_attribute_input
          (List.replicate (f.run args kwargs).length [])).length := by
    rw [hval]
    simp
  have hok : namedtupleNew (validate_attribute_input
      (List.replicate (f.run args kwargs).length [])) = .ok () := by
    rw [hval]
    refine namedtupleNew_ok ?_ ?_ ?_
    · intro n hn
      obtain ⟨i, _, rfl⟩ := List.mem_map.mp hn
      exact ⟨indexAttributeName_identifier i, indexAttributeName_not_keyword i⟩
    · intro n hn
      obtain ⟨i, _, rfl⟩ := List.mem_map.mp hn
      rw [indexAttributeName_head i]
      intro h
      cases h
    · exact List.Nodup.map indexAttributeName_inj (List.nodup_range _)
  rw [buildRecord_ok hlen hok, hval]

/-- Witness for C6: three auto-named values yield the fields
`index_0`, `index_1`, `index_2`. -/
theorem auto_naming_determinism_witness :
    convert_to_namedtuple
        (constProducer [PyVal.pyInt 1, PyVal.pyInt 2, PyVal.pyInt 3]) []
        [(("auto_attribute_names"), PyVal.pyBool true)] (fun _ => [])
      = .ok ⟨[("index_0").data, ("index_1").data, ("index_2").data],
             [PyVal.pyInt 1, PyVal.pyInt 2, PyVal.pyInt 3]⟩ :=
  auto_naming_determinism (constProducer [PyVal.pyInt 1, PyVal.pyInt 2, PyVal.pyInt 3]) []
    [(("auto_attribute_names"), PyVal.pyBool true)] (fun _ => [])
    (fun kv _ => rfl) rfl rfl

/-- Claim C7: positional fidelity - whenever the wrapped call returns a
record, the record's value list is exactly the producer's value sequence,
and the value at every position `i` of the record equals the value at
position `i` of the input sequence; nothing is reordered, sorted, or
deduplicated. -/
theorem positional_fidelity {A V : Type} (f : Producer A V) (args : List A)
    (kwargs : Kwargs) (userInput : Nat → List Char) (r : NamedRecord V)
    (h : convert_to_namedtuple f args kwargs userInput = .ok r) :
    r.values = f.run args kwargs ∧
    ∀ (i : Nat) (hi : i < r.values.length) (hj : i < (f.run args kwargs).length),
      r.values.get ⟨i, hi⟩ = (f.run args kwargs).get ⟨i, hj⟩ := by
  unfold convert_to_namedtuple at h
  cases hfind : List.find? (fun kv => !f.accepts kv.1) kwargs with
  | some _kv =>
    exfalso
    unfold callProducer at h
    rw [hfind] at h
    cases h
  | none =>
    unfold callProducer at h
    rw [hfind] at h
    simp only at h
    cases hres : resolveAttributeNames (f.run args kwargs) kwargs userInput with
    | error e =>
      have hbf : buildFromIterable (f.run args kwargs) kwargs userInput
          = Except.error e := by
        unfold buildFromIterable
        rw [hres]
      rw [hbf] at h
      cases h
    | ok raw =>
      have hbf : buildFromIterable (f.run args kwargs) kwargs userInput
          = buildRecord (f.run args kwargs) raw := by
        unfold buildFromIterable
        rw [hres]
      rw [hbf, buildRecord_eq] at h
      by_cases hlen : (f.run args kwargs).length = (validate_attribute_input raw).length
      · rw [if_pos hlen] at h
        cases hnt : namedtupleNew (validate_attribute_input raw) with
        | ok u =>
          rw [hnt] at h
          injection h with h
          subst h
          exact ⟨rfl, fun i hi hj => rfl⟩
        | error e =>
          rw [hnt] at h
          cases h
      · rw [if_neg hlen] at h
        cases h

/-- Witness for C7: a successful one-value construction whose record
holds exactly the produced value. -/
theorem positional_fidelity_witness :
    (NamedRecord.mk [("index_0").data] [PyVal.pyInt 9]).values = [PyVal.pyInt 9] :=
  (positional_fidelity (constProducer [PyVal.pyInt 9]) []
    [(("auto_attribute_names"), PyVal.pyBool true)] (fun _ => [])
    ⟨[("index_0").data], [PyVal.pyInt 9]⟩ rfl).1

/-- Claim C8: sanitizing the single name `$1_las*t_nam)(e` produces
exactly `last_name` - the leading run of non-letters (including the
digit and underscore) is stripped before the interior punctuation is
removed. -/
theorem sanitize_example_last_name :
    validate_attribute_input [ ("$1_las*t_nam)(e").data ] = [ ("last_name").data ] := rfl

/-- Claim C9: when the producer's return value is not iterable, the body
of `make_named_tuple` does not propagate the `TypeError` - it is caught
and handled by `graceful_exit`, which displays the error message on
standard output, writes the cause's `repr` to standard error, and exits
the process with status 1; on iterable inputs the conversion returns
normally and this path is never taken. -/
theorem noniterable_graceful_exit (v : PyVal) :
    (pyListOfStrings v = none →
      make_named_tuple_body v
        = .exited { stdoutLines := ['\n' :: tupleErrorMessage]
                  , stderrLines := [typeErrorRepr (notIterableMessage v) ++ ['\n']]
                  , exitCode := 1 }
      ∧ ∀ e, make_named_tuple_body v ≠ .raised e)
    ∧ (∀ t, pyListOfStrings v = some t → make_named_tuple_body v = .ok t) := by
  constructor
  · intro hnone
    unfold make_named_tuple_body
    rw [hnone]
    exact ⟨rfl, fun e h => by cases h⟩
  · intro t ht
    unfold make_named_tuple_body
    rw [ht]

/-- Witness for C9: the integer 9 (the repository's own test value for a
non-iterable input) triggers the graceful exit, and a one-element list
converts normally. -/
theorem noniterable_graceful_exit_witness :
    (make_named_tuple_body (PyVal.pyInt 9)
      = .exited { stdoutLines := ['\n' :: tupleErrorMessage]
                , stderrLines := [typeErrorRepr (notIterableMessage (PyVal.pyInt 9)) ++ ['\n']]
                , exitCode := 1 })
    ∧ make_named_tuple_body (PyVal.pyStrList [("a").data]) = .ok [("a").data] :=
  ⟨((noniterable_graceful_exit (PyVal.pyInt 9)).1 rfl).1,
   (noniterable_graceful_exit (PyVal.pyStrList [("a").data])).2 [("a").data] rfl⟩

/-- Claim C10: with `attribute_names` absent, auto-naming is triggered
exactly when `auto_attribute_names` is the boolean `True` (the code
compares with `is True`); for every other value - absent, `False`, or
any non-boolean truthy value such as the integer 1 - the wrapper collects
the candidate names through one interactive prompt per value instead. -/
theorem auto_only_on_bool_true {A V : Type} (f : Producer A V) (args : List A)
    (kwargs : Kwargs) (userInput : Nat → List Char)
    (hacc : ∀ kv ∈ kwargs, f.accepts kv.1 = true)
    (hattr : kwargsGet kwargs ("attribute_names") = PyVal.pyNone) :
    (kwargsGet kwargs ("auto_attribute_names") = PyVal.pyBool true →
      convert_to_namedtuple f args kwargs userInput
        = buildRecord (f.run args kwargs)
            (List.replicate (f.run args kwargs).length []))
    ∧ (kwargsGet kwargs ("auto_attribute_names") ≠ PyVal.pyBool true →
      convert_to_namedtuple f args kwargs userInput
        = buildRecord (f.run args kwargs)
            ((List.range (f.run args kwargs).length).map userInput)) := by
  constructor
  · intro hauto
    rw [convert_eq_build hacc, build_auto hattr hauto]
  · intro hauto
    rw [convert_eq_build hacc, build_prompts hattr hauto]

/-- Witness for C10: with `auto_attribute_names` set to the truthy
integer 1, the candidate names come from the prompt oracle, not from
auto-generation. -/
theorem auto_only_on_bool_true_witness :
    convert_to_namedtuple (constProducer [PyVal.pyInt 7]) []
        [(("auto_attribute_names"), PyVal.pyInt 1)] (fun _ => ("age").data)
      = buildRecord [PyVal.pyInt 7] ((List.range 1).map (fun _ => ("age").data)) :=
  (auto_only_on_bool_true (constProducer [PyVal.pyInt 7]) []
    [(("auto_attribute_names"), PyVal.pyInt 1)] (fun _ => ("age").data)
    (fun kv _ => rfl) rfl).2 (by decide)

end NamedtupleMaker
